import Mathlib

/-!
Verification development for the research-document extraction engine of
scripts/import_gemini_research.py.  The parsing pipeline
(parse_guest_table, parse_structured_section, parse_guest_details,
build_guest_profiles, extract_name_descriptor_pairs, first_sentence,
build_sentence_map, parse_episode_specs, load_research) is shallowly
embedded over Lean strings; Python exceptions are modelled with
Except / Option results.  Python's ordered dictionaries are modelled as
association lists with insert-or-update-in-place semantics.
-/

namespace GeminiImport

/-- Whitespace test matching Python's default str.strip and the ASCII part of the regex class \s. -/
def isWs (c : Char) : Bool :=
  c == ' ' || c == '\t' || c == '\n' || c == '\r' || c == '\x0b' || c == '\x0c'

/-- Drop leading whitespace (Python lstrip). -/
def stripL (l : List Char) : List Char := l.dropWhile isWs

/-- Drop trailing whitespace (Python rstrip). -/
def stripR : List Char → List Char
  | [] => []
  | c :: rest =>
    match stripR rest with
    | [] => if isWs c then [] else [c]
    | r :: rs => c :: r :: rs

/-- Drop leading and trailing whitespace (Python strip). -/
def stripLR (l : List Char) : List Char := stripR (stripL l)

/-- Python str.strip on strings. -/
def pyStrip (s : String) : String := ⟨stripLR s.data⟩

/-- Python str.rstrip on strings. -/
def pyRStrip (s : String) : String := ⟨stripR s.data⟩

/-- Python str.lower (ASCII). -/
def lowerStr (s : String) : String := ⟨s.data.map Char.toLower⟩

/-- Boolean prefix test on character lists. -/
def startsWithL : List Char → List Char → Bool
  | [], _ => true
  | _ :: _, [] => false
  | p :: ps, c :: cs => p == c && startsWithL ps cs

/-- Index of the first occurrence of a (non-empty, in all uses) substring, as in
Python str.find / re.search of an escaped literal. -/
def findSubIdx (needle : List Char) : List Char → Option Nat
  | [] => if startsWithL needle [] then some 0 else none
  | l@(_ :: rest) =>
    if startsWithL needle l then some 0
    else (findSubIdx needle rest).map (· + 1)

/-- Substring containment test (Python `needle in hay`). -/
def containsSubD (needle hay : List Char) : Bool := (findSubIdx needle hay).isSome

/-- Substring containment test on strings. -/
def containsSub (needle hay : String) : Bool := containsSubD needle.data hay.data

/-- Helper for splitOnChar: accumulate the current field (reversed) while scanning. -/
def goSplitChar (c : Char) (acc : List Char) : List Char → List (List Char)
  | [] => [acc.reverse]
  | x :: rest =>
    if x == c then acc.reverse :: goSplitChar c [] rest
    else goSplitChar c (x :: acc) rest

/-- Python str.split on a single separator character. -/
def splitOnChar (c : Char) (l : List Char) : List (List Char) := goSplitChar c [] l

/-- Python str.split(sep, 1): break at the first occurrence of the character, if any. -/
def splitOnceChar (c : Char) : List Char → Option (List Char × List Char)
  | [] => none
  | x :: rest =>
    if x == c then some ([], rest)
    else (splitOnceChar c rest).map (fun p => (x :: p.1, p.2))

/-- Helper for splitlinesD: accumulate the current line (reversed) while scanning;
pendingCR records that the previous character was a carriage return whose line was
already emitted, so that a following newline is consumed silently. -/
def goLines (pendingCR : Bool) (acc : List Char) : List Char → List (List Char)
  | [] => if acc.isEmpty then [] else [acc.reverse]
  | c :: rest =>
    if c == '\n' then
      if pendingCR then goLines false [] rest
      else acc.reverse :: goLines false [] rest
    else if c == '\r' then acc.reverse :: goLines true [] rest
    else goLines false (c :: acc) rest

/-- Python str.splitlines for the common line terminators \n, \r\n and \r
(a trailing terminator yields no final empty line). -/
def splitlinesD (l : List Char) : List (List Char) := goLines false [] l

/-- Helper for splitAtNlWhen: accumulate the current segment (reversed) while scanning. -/
def goSplitNl (p : List Char → Bool) (acc : List Char) : List Char → List (List Char)
  | [] => [acc.reverse]
  | c :: rest =>
    if c == '\n' && p rest then acc.reverse :: goSplitNl p [] rest
    else goSplitNl p (c :: acc) rest

/-- Lookahead split as in re.split over a newline followed by a position where
the predicate holds; the newline is consumed, the lookahead text is not. -/
def splitAtNlWhen (p : List Char → Bool) (l : List Char) : List (List Char) :=
  goSplitNl p [] l

/-- Python ' '.join-style concatenation of a list of strings with a separator. -/
def pyJoin (sep : String) : List String → String
  | [] => ""
  | [s] => s
  | s :: r :: rest => s ++ sep ++ pyJoin sep (r :: rest)

/-- Association list (Python dict) lookup: value of the first matching key. -/
def dlookup {α : Type} (k : String) : List (String × α) → Option α
  | [] => none
  | (k1, v) :: rest => if k1 = k then some v else dlookup k rest

/-- Association list (Python dict) assignment: update in place if the key exists,
otherwise append, preserving first-insertion order. -/
def dinsert {α : Type} (k : String) (v : α) : List (String × α) → List (String × α)
  | [] => [(k, v)]
  | (k1, v1) :: rest =>
    if k1 = k then (k, v) :: rest
    else (k1, v1) :: dinsert k v rest

/-- Python truthiness of an optional string: None and the empty string are falsy. -/
def truthy : Option String → Bool
  | some s => !s.data.isEmpty
  | none => false

/-- Python `a or b` on optional strings: the first operand when truthy, else the second. -/
def pyOr (a b : Option String) : Option String := if truthy a then a else b

/-- Ordered field mapping produced by the bullet-list parser (a Python dict of strings). -/
abbrev Fields := List (String × String)

/-- One row of the guest prospectus table: the domain and summary cells keyed by guest name. -/
structure TableRow where
  domain : String
  summary : String
deriving DecidableEq, Repr, Inhabited

/-- Ordered guest-name keyed table mapping (a Python dict). -/
abbrev GuestTable := List (String × TableRow)

/-- Ordered guest-name keyed detail mapping (a Python dict of field dicts). -/
abbrev Details := List (String × Fields)

/-- Guest profile record, as the GuestProfileSpec dataclass. -/
structure GuestProfileSpec where
  name : String
  persona_description : String
  expertise : Option String
  tone : Option String
  background : Option String
  potential_topic : Option String
  summary : Option String
deriving DecidableEq, Repr, Inhabited

/-- Episode record, as the EpisodeSpec dataclass (notes is an ordered dict). -/
structure EpisodeSpec where
  title : String
  description : String
  guest_names : List String
  theme : String
  notes : Fields
deriving DecidableEq, Repr, Inhabited

/-- Error kinds of the guest-table parser: a required literal boundary is missing,
or the located table yields zero rows. -/
inductive ParseErr
  | missingMarker (expected : String)
  | emptyResult
deriving DecidableEq, Repr

/-- State machine of parse_structured_section: `* Key: Value` bullets open fields,
bulleted lines without a colon-space close the current field, other non-blank
lines extend the current field. -/
def psGo : List String → Fields → Option String → Fields
  | [], fields, _ => fields
  | raw :: rest, fields, cur =>
    let stripped := stripLR raw.data
    if stripped.isEmpty then psGo rest fields cur
    else if startsWithL "* ".data stripped then
      let content := stripLR (stripped.drop 2)
      if containsSubD ": ".data content then
        match splitOnceChar ':' content with
        | some kv =>
          let ck : String := ⟨stripLR kv.1⟩
          psGo rest (dinsert ck ⟨stripLR kv.2⟩ fields) (some ck)
        | none => psGo rest fields none
      else psGo rest fields none
    else
      match cur with
      | some k =>
        psGo rest (dinsert k (pyStrip ((dlookup k fields).getD "" ++ " " ++ (⟨stripped⟩ : String))) fields) cur
      | none => psGo rest fields cur

/-- Embedding of parse_structured_section. -/
def parse_structured_section (lines : List String) : Fields := psGo lines [] none

/-- Literal header row of the guest prospectus table. -/
def guestTableHeader : String := "| Guest Name | Domain | Relevance Summary |"

/-- Literal boundary marker between the table and the detailed profiles. -/
def detailedMarker : String := "Detailed Guest Profiles"

/-- Body of the row loop of parse_guest_table: skip blank lines, lines starting
with the literal "|---" and duplicate header rows; split on the pipes, drop the
outer empty fields, trim the cells, and record rows with at least two columns. -/
def processTableLine (m : GuestTable) (line : List Char) : GuestTable :=
  let stripped := stripLR line
  if stripped.isEmpty then m
  else if startsWithL "|---".data stripped then m
  else if stripped.contains '|' then
    let columns := (((splitOnChar '|' stripped).drop 1).dropLast).map
      (fun c => (⟨stripLR c⟩ : String))
    if columns.length ≥ 2 then
      let name := columns.headD ""
      let domain := (columns[1]?).getD ""
      let summary := (columns[2]?).getD ""
      if !name.data.isEmpty && !(lowerStr name == "guest name") && !(lowerStr name == "name") then
        dinsert name ⟨domain, summary⟩ m
      else m
    else m
  else m

/-- Embedding of parse_guest_table; ValueError exits are modelled as ParseErr values. -/
def parse_guest_table (text : String) : Except ParseErr GuestTable :=
  match findSubIdx guestTableHeader.data text.data with
  | none => .error (.missingMarker guestTableHeader)
  | some i =>
    match findSubIdx detailedMarker.data (text.data.drop (i + guestTableHeader.data.length)) with
    | none => .error (.missingMarker detailedMarker)
    | some j =>
      let rows := (splitlinesD ((text.data.drop (i + guestTableHeader.data.length)).take j)).foldl
        processTableLine []
      if rows.isEmpty then .error .emptyResult else .ok rows

/-- Lookahead predicate for the detail-block split: digits, a dot, then one whitespace
character (the regex lookahead digits dot whitespace). -/
def detailP (l : List Char) : Bool :=
  match List.span Char.isDigit l with
  | ([], _) => false
  | (_ :: _, r) =>
    match r with
    | '.' :: w :: _ => isWs w
    | _ => false

/-- Match of the detail-block header pattern (digits, dot, whitespace, captured rest):
returns the trimmed captured guest name when the header matches. -/
def detailHeaderName (header : String) : Option String :=
  match List.span Char.isDigit header.data with
  | ([], _) => none
  | (_ :: _, r) =>
    match r with
    | '.' :: r2 =>
      match List.span isWs r2 with
      | ([], _) => none
      | (_ :: _, r3) => some ⟨stripLR r3⟩
    | _ => none

/-- Non-blank lines of a block, right-stripped, as in the list comprehension
over block.splitlines(). -/
def nonblankLines (block : String) : List String :=
  ((splitlinesD block.data).filter (fun l => !(stripLR l).isEmpty)).map
    (fun l => (⟨stripR l⟩ : String))

/-- Embedding of parse_guest_details: text after the detailed-profiles marker
(truncated before "IV. Strategic Analysis"), split into numbered blocks; blocks
whose header does not match the numbering pattern are skipped. -/
def parse_guest_details (text : String) : Details :=
  match findSubIdx detailedMarker.data text.data with
  | none => []
  | some i =>
    let afterM := text.data.drop (i + detailedMarker.data.length)
    let details_text :=
      match findSubIdx "IV. Strategic Analysis".data afterM with
      | some j => afterM.take j
      | none => afterM
    (splitAtNlWhen detailP (stripLR details_text)).foldl
      (fun m sec =>
        let block := stripLR sec
        if block.isEmpty then m
        else
          match nonblankLines ⟨block⟩ with
          | [] => m
          | header :: restLines =>
            match detailHeaderName header with
            | none => m
            | some name => dinsert name (parse_structured_section restLines) m) []

/-- Name-keyed profile mapping (the by_name Python dict). -/
abbrev ByName := List (String × GuestProfileSpec)

/-- Embedding of the assemble_profile closure of build_guest_profiles. -/
def assemble_profile (name : String) (info : Fields) (table_entry : Option TableRow) :
    GuestProfileSpec :=
  let domain := pyOr (dlookup "Domain" info) (table_entry.map (·.domain))
  let rationale := dlookup "Rationale" info
  let summary := table_entry.map (·.summary)
  let chemistry := dlookup "Chemistry Tag" info
  let potential := dlookup "Potential Topic" info
  let persona_parts :=
    (([summary, rationale].filterMap id).filter (fun p => !p.data.isEmpty))
      ++ (if truthy chemistry then ["Chemistry Tag: " ++ chemistry.getD ""] else [])
      ++ (if truthy potential then ["Potential Topic: " ++ potential.getD ""] else [])
  let background_parts :=
    (if truthy (dlookup "Audience Type" info) then
      ["Audience: " ++ (dlookup "Audience Type" info).getD ""] else [])
      ++ (if truthy (dlookup "Influence Level" info) then
        ["Influence: " ++ (dlookup "Influence Level" info).getD ""] else [])
  let backgroundJ := pyJoin " | " background_parts
  { name := name
    persona_description := pyStrip (pyJoin " " persona_parts)
    expertise := domain
    tone := chemistry
    background := if backgroundJ.data.isEmpty then none else some backgroundJ
    potential_topic := potential
    summary := pyOr summary rationale }

/-- First loop of build_guest_profiles: one profile per table entry, in table order,
merging in any detail fields for the same name. -/
def bgpLoop1 (details : Details) :
    GuestTable → List GuestProfileSpec → ByName → List GuestProfileSpec × ByName
  | [], ps, bn => (ps, bn)
  | (name, te) :: rest, ps, bn =>
    let spec := assemble_profile name ((dlookup name details).getD []) (some te)
    bgpLoop1 details rest (ps ++ [spec]) (dinsert name spec bn)

/-- Second loop of build_guest_profiles: one profile per detail entry whose name
is not yet present, in detail order. -/
def bgpLoop2 : Details → List GuestProfileSpec → ByName → List GuestProfileSpec × ByName
  | [], ps, bn => (ps, bn)
  | (name, de) :: rest, ps, bn =>
    if (dlookup name bn).isSome then bgpLoop2 rest ps bn
    else
      let spec := assemble_profile name de none
      bgpLoop2 rest (ps ++ [spec]) (dinsert name spec bn)

/-- Embedding of build_guest_profiles. -/
def build_guest_profiles (table : GuestTable) (details : Details) :
    List GuestProfileSpec × ByName :=
  let r1 := bgpLoop1 details table [] []
  bgpLoop2 details r1.1 r1.2

/-- Match of the regex ws-star lparen [^)]+ rparen at one position: skip whitespace,
require an opening parenthesis, a non-empty run without closing parentheses, and the
closing parenthesis; returns the parenthesized content and the rest. -/
def matchParen : List Char → Option (List Char × List Char)
  | [] => none
  | c :: rest =>
    if isWs c then matchParen rest
    else if c == '(' then
      match List.span (fun x => !(x == ')')) rest with
      | (content, rest2) =>
        match rest2 with
        | ')' :: rest3 => if content.isEmpty then none else some (content, rest3)
        | _ => none
    else none

/-- Lazy name accumulation of the pairing regex: grow the dot-plus-lazy group one
non-newline character at a time until the parenthetical tail matches. -/
def pairGo (nameRev : List Char) : List Char → Option (List Char × List Char × List Char)
  | [] => none
  | c :: rest =>
    if c == '\n' then none
    else
      match matchParen rest with
      | some (content, rest2) => some ((c :: nameRev).reverse, content, rest2)
      | none => pairGo (c :: nameRev) rest

/-- Match of the full pairing regex (lazy text then a parenthetical) at one position. -/
def matchPairAt (l : List Char) : Option (List Char × List Char × List Char) := pairGo [] l

/-- Scanning loop of re.findall for the pairing regex: leftmost non-overlapping
matches; the fuel argument equals the input length, which bounds the number of
scan steps since every step consumes at least one character. -/
def findallGo : Nat → List Char → List (List Char × List Char)
  | 0, _ => []
  | _, [] => []
  | fuel + 1, l@(_ :: rest) =>
    match matchPairAt l with
    | some (name, content, rest2) => (name, content) :: findallGo fuel rest2
    | none => findallGo fuel rest

/-- re.findall of the pairing regex over the whole string. -/
def findallPairs (l : List Char) : List (List Char × List Char) := findallGo l.length l

/-- Character class of the name-cleaning pattern: whitespace, plus sign, comma. -/
def sepClass (c : Char) : Bool := isWs c || c == '+' || c == ','

/-- Character class of the fallback-token trailing pattern: whitespace, plus, comma, dot. -/
def sepClassDot (c : Char) : Bool := isWs c || c == '+' || c == ',' || c == '.'

/-- re.sub of an anchored leading-class-run or trailing-class-run with the empty string:
drop the leading run of the first class and the trailing run of the second. -/
def subEdges (lead trail : Char → Bool) (l : List Char) : List Char :=
  ((l.dropWhile lead).reverse.dropWhile trail).reverse

/-- re.sub of a leading case-insensitive "and" connector (whitespace-star, "and",
whitespace-plus); the input is returned unchanged when the pattern does not match. -/
def dropAndPrefixD (l : List Char) : List Char :=
  match l.dropWhile isWs with
  | a :: n :: d :: rest =>
    if a.toLower == 'a' && n.toLower == 'n' && d.toLower == 'd' then
      match List.span isWs rest with
      | ([], _) => l
      | (_ :: _, rest2) => rest2
    else l
  | _ => l

/-- Separator match of the fallback re.split pattern at one position: a whitespace run
then a plus sign, or a comma with surrounding whitespace runs, or the word "and"
with non-empty whitespace runs on both sides. -/
def sepMatchAt (l : List Char) : Option (List Char) :=
  match List.span isWs l with
  | (ws, r) =>
    match r with
    | '+' :: r2 => some r2
    | ',' :: r2 => some (List.span isWs r2).2
    | 'a' :: 'n' :: 'd' :: r2 =>
      if ws.isEmpty then none
      else
        match List.span isWs r2 with
        | ([], _) => none
        | (_ :: _, r3) => some r3
    | _ => none

/-- Scanning loop of the fallback re.split: break the string at each leftmost separator
match; the fuel argument equals the input length (every separator consumes at least
one character). -/
def splitSepGo : Nat → List Char → List Char → List (List Char)
  | _, acc, [] => [acc.reverse]
  | 0, acc, l => [acc.reverse ++ l]
  | fuel + 1, acc, l@(c :: rest) =>
    match sepMatchAt l with
    | some rest2 => acc.reverse :: splitSepGo fuel [] rest2
    | none => splitSepGo fuel (c :: acc) rest

/-- re.split of the fallback separator pattern over the whole string. -/
def reSplitSep (l : List Char) : List (List Char) := splitSepGo l.length [] l

/-- Embedding of extract_name_descriptor_pairs: the parenthetical strategy first,
falling back to separator tokenization when it yields no pair. -/
def extract_name_descriptor_pairs (raw : String) : List (String × Option String) :=
  let primary := (findallPairs raw.data).filterMap
    (fun nc =>
      let clean1 := subEdges sepClass sepClass (stripLR nc.1)
      let clean2 := dropAndPrefixD clean1
      if clean2.isEmpty then none
      else some ((⟨clean2⟩ : String), some (⟨stripLR nc.2⟩ : String)))
  if primary.isEmpty then
    (reSplitSep raw.data).filterMap
      (fun token =>
        let c1 := subEdges sepClass sepClassDot (stripLR token)
        let c2 := dropAndPrefixD c1
        if !c2.isEmpty && c2.length > 2 then some ((⟨c2⟩ : String), none) else none)
  else primary

/-- Scanning loop of the sentence split (whitespace run preceded by terminal
punctuation, the punctuation staying with its sentence); prev is the character
before the current position, and the fuel equals the input length. -/
def sentGo : Nat → Char → List Char → List Char → List (List Char)
  | _, _, acc, [] => [acc.reverse]
  | 0, _, acc, l => [acc.reverse ++ l]
  | fuel + 1, prev, acc, c :: rest =>
    if isWs c && (prev == '.' || prev == '!' || prev == '?') then
      acc.reverse :: sentGo fuel ' ' [] (List.span isWs rest).2
    else sentGo fuel c (c :: acc) rest

/-- Sentence segmentation of re.split on whitespace after terminal punctuation. -/
def splitSentencesD (l : List Char) : List (List Char) := sentGo l.length ' ' [] l

/-- Embedding of first_sentence. -/
def first_sentence (text : String) : String :=
  let sentences := if text.data.isEmpty then [] else splitSentencesD (stripLR text.data)
  match sentences with
  | [] => ""
  | s :: _ => ⟨(s.reverse.dropWhile (fun c => c == '.' || c == ' ')).reverse⟩

/-- Embedding of build_sentence_map: for each name, the space-join of the narrative
sentences containing it, recorded only when at least one sentence matches. -/
def build_sentence_map (narrative : String) (names : List String) : Fields :=
  let sentences := if narrative.data.isEmpty then [] else splitSentencesD (stripLR narrative.data)
  names.foldl
    (fun m name =>
      let relevant := sentences.filter (fun s => containsSubD name.data s)
      if relevant.isEmpty then m
      else dinsert name (pyJoin " " (relevant.map (fun s => (⟨s⟩ : String)))) m) []

/-- Literal marker that opens the episode-definition zone. -/
def pairingMarker : String := "1. Thematic Pairing:"

/-- Lookahead predicate for the episode-section split: digits, a dot, a non-empty
whitespace run, then the literal "Thematic". -/
def thematicP (l : List Char) : Bool :=
  match List.span Char.isDigit l with
  | ([], _) => false
  | (_ :: _, r) =>
    match r with
    | '.' :: r2 =>
      match List.span isWs r2 with
      | ([], _) => false
      | (_ :: _, r3) => startsWithL "Thematic".data r3
    | _ => false

/-- Python header.split(colon, 1)[1]: the text after the first colon, when the header
has one (its absence makes the source raise IndexError). -/
def splitColonTail (s : String) : Option String :=
  (splitOnceChar ':' s.data).map (fun p => (⟨p.2⟩ : String))

/-- Rendering of one guest in the pairing description: the name with its
parenthesized descriptor when the descriptor is truthy. -/
def pairingRender (g : String × Option String) : String :=
  match g.2 with
  | some d => if d.data.isEmpty then g.1 else g.1 ++ " (" ++ d ++ ")"
  | none => g.1

/-- Episode built by the Thematic Pairing branch from the block's fields and the
header text after the colon. -/
def pairingEpisode (fields : Fields) (tail : String) : EpisodeSpec :=
  let theme := pyStrip tail
  let concept := pyStrip ((dlookup "Concept" fields).getD "")
  let engineered := pyStrip ((dlookup "Engineered Dialogue" fields).getD "")
  let raw_pairing := (dlookup "Proposed Pairing" fields).getD ""
  let guests := extract_name_descriptor_pairs raw_pairing
  let subtitle := first_sentence concept
  let descriptor_text := pyJoin " & " (guests.map pairingRender)
  let description_parts := [concept, engineered]
    ++ (if !descriptor_text.data.isEmpty then ["Featuring " ++ descriptor_text ++ "."] else [])
  { title := if !subtitle.data.isEmpty then theme ++ ": " ++ subtitle else theme
    description := pyStrip (pyJoin " " (description_parts.filter (fun p => !p.data.isEmpty)))
    guest_names := guests.map Prod.fst
    theme := theme
    notes := [("pairing", raw_pairing), ("concept", concept), ("engineered", engineered)] }

/-- Loop of the Thematic Arc branch: one episode per extracted guest, numbered from
the given 1-based index. -/
def arcEpisodes (theme concept narrative : String) (smap : Fields) :
    Nat → List (String × Option String) → List EpisodeSpec
  | _, [] => []
  | idx, (name, descriptor) :: rest =>
    let part_title :=
      match descriptor with
      | some d => if d.data.isEmpty then "Conversation with " ++ name else d
      | none => "Conversation with " ++ name
    let description_parts := [concept]
      ++ (match dlookup name smap with
        | some s => if s.data.isEmpty then [] else [s]
        | none => [])
      ++ ["Featuring " ++ name ++ "."]
    { title := theme ++ " (Part " ++ toString idx ++ "): " ++ part_title
      description := pyStrip (pyJoin " " (description_parts.filter (fun p => !p.data.isEmpty)))
      guest_names := [name]
      theme := theme
      notes := [("concept", concept), ("narrative", narrative), ("part", toString idx)] }
      :: arcEpisodes theme concept narrative smap (idx + 1) rest

/-- Episodes built by the Thematic Arc branch from the block's fields and the header
text after the colon. -/
def arcSection (tail : String) (fields : Fields) : List EpisodeSpec :=
  let theme := pyStrip tail
  let concept := pyStrip ((dlookup "Concept" fields).getD "")
  let raw_guests := (dlookup "Guests" fields).getD ""
  let narrative := pyStrip ((dlookup "Narrative Flow" fields).getD "")
  let guests := extract_name_descriptor_pairs raw_guests
  let smap := build_sentence_map narrative (guests.map Prod.fst)
  arcEpisodes theme concept narrative smap 1 guests

/-- Processing of one episode-definition block of parse_episode_specs: classify the
header, parse the bullet fields, and build the block's episodes; none models the
IndexError raised when a classified header has no colon. -/
def processSection (sec : String) : Option (List EpisodeSpec) :=
  if (pyStrip sec).data.isEmpty then some []
  else
    match nonblankLines (pyStrip sec) with
    | [] => none
    | header :: restLines =>
      let fields := parse_structured_section restLines
      if containsSub "Thematic Pairing" header then
        (splitColonTail header).map (fun tail => [pairingEpisode fields tail])
      else if containsSub "Thematic Arc" header then
        (splitColonTail header).map (fun tail => arcSection tail fields)
      else some []

/-- Episode-definition blocks of the document: the text from the first occurrence of
the pairing marker, stripped, split at numbered Thematic headers. -/
def episodeSections (text : String) : List String :=
  match findSubIdx pairingMarker.data text.data with
  | none => []
  | some i =>
    (splitAtNlWhen thematicP (stripLR (text.data.drop i))).map (fun l => (⟨l⟩ : String))

/-- Accumulation step of the episode loop: append the block's episodes, or
propagate a raised exception (none). -/
def epStep (acc : Option (List EpisodeSpec)) (sec : String) : Option (List EpisodeSpec) :=
  match acc with
  | none => none
  | some eps =>
    match processSection sec with
    | some more => some (eps ++ more)
    | none => none

/-- Embedding of parse_episode_specs; none models an uncaught exception, and an
absent pairing marker yields the empty episode list. -/
def parse_episode_specs (text : String) : Option (List EpisodeSpec) :=
  match findSubIdx pairingMarker.data text.data with
  | none => some []
  | some _ => (episodeSections text).foldl epStep (some [])

/-- Error kinds of the whole engine run: a guest-table parse failure, or an uncaught
exception from the episode parser. -/
inductive EngineError
  | tableFailure (e : ParseErr)
  | uncaught
deriving DecidableEq, Repr

/-- Embedding of the load_research orchestration over the document text (the file
read is abstracted to its text): table, details, merged profiles, episodes. -/
def load_research (text : String) :
    Except EngineError (List GuestProfileSpec × ByName × List EpisodeSpec) :=
  match parse_guest_table text with
  | .error e => .error (.tableFailure e)
  | .ok table =>
    let r := build_guest_profiles table (parse_guest_details text)
    match parse_episode_specs text with
    | some episodes => .ok (r.1, r.2, episodes)
    | none => .error .uncaught

/-! Specification-side definitions, written from the specification's wording, to be
compared with the embedded code. -/

/-- Persona description exactly as the specification's claim words it: the table
summary (or the Rationale field if there is no truthy summary), then the Rationale
field only when the summary was used first and Rationale differs from it, then the
tagged chemistry and potential-topic parts; non-empty parts space-joined. -/
def personaClaimC1 (summary rationale chemistry potential : Option String) : String :=
  let firstPart :=
    if truthy summary then [summary.getD ""]
    else if truthy rationale then [rationale.getD ""] else []
  let rationalePart :=
    if truthy summary && truthy rationale then
      if rationale.getD "" = summary.getD "" then [] else [rationale.getD ""]
    else []
  let chemPart := if truthy chemistry then ["Chemistry Tag: " ++ chemistry.getD ""] else []
  let potPart := if truthy potential then ["Potential Topic: " ++ potential.getD ""] else []
  pyStrip (pyJoin " " (firstPart ++ rationalePart ++ chemPart ++ potPart))

/-- Persona description with the amended wording: the table summary (or the Rationale
field if there is no truthy summary), then the Rationale field whenever both the
summary and Rationale are truthy (even when they coincide), then the tagged
chemistry and potential-topic parts; non-empty parts space-joined. -/
def personaAmended (summary rationale chemistry potential : Option String) : String :=
  let firstPart :=
    if truthy summary then [summary.getD ""]
    else if truthy rationale then [rationale.getD ""] else []
  let rationalePart :=
    if truthy summary && truthy rationale then [rationale.getD ""] else []
  let chemPart := if truthy chemistry then ["Chemistry Tag: " ++ chemistry.getD ""] else []
  let potPart := if truthy potential then ["Potential Topic: " ++ potential.getD ""] else []
  pyStrip (pyJoin " " (firstPart ++ rationalePart ++ chemPart ++ potPart))

/-- Per-line row policy of the guest-table body, stated declaratively: a line
contributes the entry it parses to, or nothing when it is blank, starts with the
literal "|---", has fewer than two usable columns, or is a duplicate header row. -/
def tableRowPolicy (line : List Char) : Option (String × TableRow) :=
  let stripped := stripLR line
  if stripped.isEmpty then none
  else if startsWithL "|---".data stripped then none
  else
    let columns := (((splitOnChar '|' stripped).drop 1).dropLast).map
      (fun c => (⟨stripLR c⟩ : String))
    if columns.length < 2 then none
    else
      let name := columns.headD ""
      if name.data.isEmpty || lowerStr name == "guest name" || lowerStr name == "name" then none
      else some (name, ⟨(columns[1]?).getD "", (columns[2]?).getD ""⟩)

/-- Well-formedness of one episode block for the amended safety claim: when the
header is classified as a Pairing or Arc section it must contain a colon. -/
def sectionHeaderOk (s : String) : Bool :=
  if (pyStrip s).data.isEmpty then true
  else
    match nonblankLines (pyStrip s) with
    | [] => false
    | header :: _ =>
      if containsSub "Thematic Pairing" header || containsSub "Thematic Arc" header then
        header.data.contains ':'
      else true

/-- Expected episode count of one block, as the specification states it: one for a
Pairing section, the number of guests extracted from the Guests field for an Arc
section, zero otherwise. -/
def sectionEpisodeCount (s : String) : Nat :=
  if (pyStrip s).data.isEmpty then 0
  else
    match nonblankLines (pyStrip s) with
    | [] => 0
    | header :: restLines =>
      if containsSub "Thematic Pairing" header then 1
      else if containsSub "Thematic Arc" header then
        (extract_name_descriptor_pairs
          ((dlookup "Guests" (parse_structured_section restLines)).getD "")).length
      else 0

/-- Profile built for a table entry in the first loop of build_guest_profiles. -/
def assembleT (details : Details) (nt : String × TableRow) : GuestProfileSpec :=
  assemble_profile nt.1 ((dlookup nt.1 details).getD []) (some nt.2)

/-- Profile built for a detail-only entry in the second loop of build_guest_profiles. -/
def assembleD (nd : String × Fields) : GuestProfileSpec :=
  assemble_profile nd.1 nd.2 none

/-! Basic lemmas about the string primitives. -/

theorem dataEq {a b : String} (h : a.data = b.data) : a = b := by
  cases a; cases b; exact congrArg String.mk h

theorem data_append (a b : String) : (a ++ b).data = a.data ++ b.data := rfl

theorem stringNeEmpty {s : String} (h : s.data ≠ []) : s ≠ "" := by
  intro hc; subst hc; exact h rfl

theorem append_ne_empty_right (a b : String) (h : b ≠ "") : a ++ b ≠ "" := by
  intro hc
  have h2 : a.data ++ b.data = [] := congrArg String.data hc
  exact h (dataEq ((List.append_eq_nil.mp h2).2))

theorem append_ne_empty_left (a b : String) (h : a ≠ "") : a ++ b ≠ "" := by
  intro hc
  have h2 : a.data ++ b.data = [] := congrArg String.data hc
  exact h (dataEq ((List.append_eq_nil.mp h2).1))

theorem dropWhile_head_false {p : Char → Bool} :
    ∀ {l : List Char} {c : Char} {t : List Char}, l.dropWhile p = c :: t → p c = false := by
  intro l
  induction l with
  | nil => intro c t h; simp [List.dropWhile] at h
  | cons a as ih =>
    intro c t h
    by_cases hpa : p a = true
    · rw [List.dropWhile_cons_of_pos hpa] at h
      exact ih h
    · rw [List.dropWhile_cons_of_neg hpa] at h
      cases h
      simpa using hpa

theorem mem_dropWhile_of_not {p : Char → Bool} {x : Char} (hx : p x = false) :
    ∀ {l : List Char}, x ∈ l → x ∈ l.dropWhile p := by
  intro l
  induction l with
  | nil => intro h; simp at h
  | cons a as ih =>
    intro h
    by_cases hpa : p a = true
    · rw [List.dropWhile_cons_of_pos hpa]
      rcases List.mem_cons.mp h with h1 | h2
      · rw [h1] at hx; rw [hx] at hpa; exact absurd hpa (by simp)
      · exact ih h2
    · rw [List.dropWhile_cons_of_neg hpa]
      exact h

theorem stripR_ne_nil_of_mem {c : Char} (hw : isWs c = false) :
    ∀ {l : List Char}, c ∈ l → stripR l ≠ [] := by
  intro l
  induction l with
  | nil => intro h; simp at h
  | cons a as ih =>
    intro h
    show (match stripR as with
      | [] => if isWs a then [] else [a]
      | r :: rs => a :: r :: rs) ≠ []
    rcases List.mem_cons.mp h with h1 | h2
    · subst h1
      cases hr : stripR as with
      | nil => simp [hw]
      | cons r rs => simp
    · cases hr : stripR as with
      | nil => exact absurd hr (ih h2)
      | cons r rs => simp

theorem stripR_head :
    ∀ {l : List Char} {c : Char} {t : List Char}, stripR l = c :: t → ∃ t2, l = c :: t2 := by
  intro l
  cases l with
  | nil => intro c t h; simp [stripR] at h
  | cons a as =>
    intro c t h
    have h2 : (match stripR as with
      | [] => if isWs a then [] else [a]
      | r :: rs => a :: r :: rs) = c :: t := h
    cases hr : stripR as with
    | nil =>
      rw [hr] at h2
      by_cases hw : isWs a
      · simp [hw] at h2
      · simp [hw] at h2
        exact ⟨as, by rw [h2.1]⟩
    | cons r rs =>
      rw [hr] at h2
      cases h2
      exact ⟨as, rfl⟩

theorem stripLR_ne_nil_of_mem {c : Char} (hw : isWs c = false) {l : List Char} (hc : c ∈ l) :
    stripLR l ≠ [] :=
  stripR_ne_nil_of_mem hw (mem_dropWhile_of_not hw hc)

theorem stripLR_head_not_ws {l : List Char} {c : Char} {t : List Char}
    (h : stripLR l = c :: t) : isWs c = false := by
  obtain ⟨t2, h2⟩ := stripR_head h
  exact dropWhile_head_false (p := isWs) h2

theorem pyStrip_ne_empty_of_mem {s : String} {c : Char} (hc : c ∈ s.data)
    (hw : isWs c = false) : pyStrip s ≠ "" := by
  apply stringNeEmpty
  show stripLR s.data ≠ []
  exact stripLR_ne_nil_of_mem hw hc

theorem pyStrip_head {s : String} (h : pyStrip s ≠ "") :
    ∃ c t, (pyStrip s).data = c :: t ∧ isWs c = false := by
  cases hd : (pyStrip s).data with
  | nil => exact absurd (dataEq (hd.trans rfl)) h
  | cons c t =>
    have hd2 : stripLR s.data = c :: t := hd
    exact ⟨c, t, rfl, stripLR_head_not_ws hd2⟩

theorem pyStrip_head_char {s : String} (h : pyStrip s ≠ "") :
    ∃ c, c ∈ (pyStrip s).data ∧ isWs c = false := by
  obtain ⟨c, t, hd, hw⟩ := pyStrip_head h
  exact ⟨c, by rw [hd]; exact List.mem_cons_self c t, hw⟩

theorem mem_pyJoin {sep : String} {parts : List String} {s : String} (hs : s ∈ parts)
    {c : Char} (hc : c ∈ s.data) : c ∈ (pyJoin sep parts).data := by
  induction parts with
  | nil => simp at hs
  | cons a rest ih =>
    cases rest with
    | nil =>
      rcases List.mem_cons.mp hs with h1 | h2
      · rw [← h1]; simpa [pyJoin] using hc
      · simp at h2
    | cons b bs =>
      rcases List.mem_cons.mp hs with h1 | h2
      · show c ∈ (a ++ sep ++ pyJoin sep (b :: bs)).data
        rw [data_append, data_append]
        rw [← h1]
        exact List.mem_append.mpr (.inl (List.mem_append.mpr (.inl hc)))
      · show c ∈ (a ++ sep ++ pyJoin sep (b :: bs)).data
        rw [data_append, data_append]
        exact List.mem_append.mpr (.inr (ih h2))

/-! Lemmas about the ordered-dict operations. -/

theorem dlookup_dinsert {α : Type} (q k : String) (v : α) (m : List (String × α)) :
    dlookup q (dinsert k v m) = if q = k then some v else dlookup q m := by
  induction m with
  | nil =>
    show (if k = q then some v else none) = if q = k then some v else none
    by_cases h : q = k
    · rw [if_pos h.symm, if_pos h]
    · rw [if_neg (fun hc => h hc.symm), if_neg h]
  | cons p rest ih =>
    obtain ⟨k1, v1⟩ := p
    show dlookup q (if k1 = k then (k, v) :: rest else (k1, v1) :: dinsert k v rest) = _
    by_cases h1 : k1 = k
    · rw [if_pos h1]
      show (if k = q then some v else dlookup q rest) = _
      subst h1
      by_cases h2 : q = k1
      · rw [if_pos h2.symm, if_pos h2]
      · rw [if_neg (fun hc => h2 hc.symm), if_neg h2]
        show dlookup q rest = if k1 = q then some v1 else dlookup q rest
        rw [if_neg (fun hc => h2 hc.symm)]
    · rw [if_neg h1]
      show (if k1 = q then some v1 else dlookup q (dinsert k v rest)) = _
      by_cases h2 : k1 = q
      · rw [if_pos h2]
        subst h2
        rw [if_neg (fun hc : k1 = k => h1 hc)]
        show some v1 = if k1 = k1 then some v1 else dlookup k1 rest
        rw [if_pos rfl]
      · rw [if_neg h2, ih]
        by_cases h3 : q = k
        · rw [if_pos h3, if_pos h3]
        · rw [if_neg h3, if_neg h3]
          show dlookup q rest = if k1 = q then some v1 else dlookup q rest
          rw [if_neg h2]

theorem dlookup_eq_none_iff {α : Type} (q : String) (m : List (String × α)) :
    dlookup q m = none ↔ q ∉ m.map Prod.fst := by
  induction m with
  | nil => simp [dlookup]
  | cons p rest ih =>
    obtain ⟨k1, v1⟩ := p
    by_cases h : k1 = q
    · subst h; simp [dlookup]
    · show (if k1 = q then some v1 else dlookup q rest) = none ↔ _
      rw [if_neg h, ih]
      simp only [List.map_cons, List.mem_cons]
      constructor
      · intro hq hc
        rcases hc with hc1 | hc2
        · exact h hc1.symm
        · exact hq hc2
      · intro hq hc
        exact hq (.inr hc)

theorem dlookup_isSome_iff {α : Type} (q : String) (m : List (String × α)) :
    (dlookup q m).isSome = true ↔ q ∈ m.map Prod.fst := by
  rw [← Decidable.not_not (p := q ∈ m.map Prod.fst), ← dlookup_eq_none_iff]
  cases dlookup q m <;> simp

theorem dlookup_of_mem_nodup {α : Type} {k : String} {v : α} {m : List (String × α)}
    (hn : (m.map Prod.fst).Nodup) (hm : (k, v) ∈ m) : dlookup k m = some v := by
  induction m with
  | nil => simp at hm
  | cons p rest ih =>
    obtain ⟨k1, v1⟩ := p
    rcases List.mem_cons.mp hm with h1 | h2
    · cases h1; simp [dlookup]
    · have hk : k1 ≠ k := by
        intro hc
        subst hc
        have : k1 ∈ rest.map Prod.fst := List.mem_map.mpr ⟨(k1, v), h2, rfl⟩
        exact (List.nodup_cons.mp (by simpa using hn)).1 this
      have hrest : (rest.map Prod.fst).Nodup := (List.nodup_cons.mp (by simpa using hn)).2
      simp [dlookup, hk, ih hrest h2]

theorem dlookup_eq_none_of_not_mem {α : Type} {q : String} {m : List (String × α)}
    (h : q ∉ m.map Prod.fst) : dlookup q m = none :=
  (dlookup_eq_none_iff q m).mpr h

theorem filter_congr_on {α : Type} (p q : α → Bool) :
    ∀ (l : List α), (∀ a ∈ l, p a = q a) → l.filter p = l.filter q := by
  intro l
  induction l with
  | nil => intro h; rfl
  | cons a rest ih =>
    intro h
    have ha := h a (List.mem_cons_self a rest)
    have hrest := ih (fun x hx => h x (List.mem_cons_of_mem a hx))
    by_cases hq : q a = true
    · rw [List.filter_cons_of_pos (by rw [ha]; exact hq), List.filter_cons_of_pos hq, hrest]
    · rw [List.filter_cons_of_neg (by rw [ha]; simpa using hq), List.filter_cons_of_neg
        (by simpa using hq), hrest]

theorem map_fst_filter_key {α : Type} (p : String → Bool) (l : List (String × α)) :
    (l.filter (fun nd => p nd.1)).map Prod.fst = (l.map Prod.fst).filter p := by
  induction l with
  | nil => rfl
  | cons a rest ih =>
    simp only [List.map_cons, List.filter_cons]
    cases hp : p a.1 <;> simp [hp, ih]

/-! Structure lemmas for build_guest_profiles. -/

theorem assemble_name (n : String) (info : Fields) (te : Option TableRow) :
    (assemble_profile n info te).name = n := rfl

theorem bgpLoop1_eq (details : Details) :
    ∀ (tbl : GuestTable) (ps : List GuestProfileSpec) (bn : ByName),
      bgpLoop1 details tbl ps bn
        = (ps ++ tbl.map (assembleT details),
           tbl.foldl (fun b nt => dinsert nt.1 (assembleT details nt) b) bn) := by
  intro tbl
  induction tbl with
  | nil => intro ps bn; simp [bgpLoop1]
  | cons nt rest ih =>
    intro ps bn
    obtain ⟨name, te⟩ := nt
    rw [bgpLoop1, ih]
    simp [assembleT]

theorem foldl_dinsert_lookup_isSome (details : Details) :
    ∀ (tbl : GuestTable) (bn : ByName) (n : String),
      (dlookup n (tbl.foldl (fun b nt => dinsert nt.1 (assembleT details nt) b) bn)).isSome
        = true
      ↔ n ∈ tbl.map Prod.fst ∨ (dlookup n bn).isSome = true := by
  intro tbl
  induction tbl with
  | nil => intro bn n; simp
  | cons nt rest ih =>
    intro bn n
    rw [List.foldl_cons, ih]
    by_cases h : n = nt.1
    · subst h
      simp [dlookup_dinsert]
    · simp [dlookup_dinsert, h]

theorem bgpLoop2_eq :
    ∀ (dts : Details) (ps : List GuestProfileSpec) (bn : ByName),
      (dts.map Prod.fst).Nodup →
      (bgpLoop2 dts ps bn).1
        = ps ++ (dts.filter (fun nd => (dlookup nd.1 bn).isNone)).map assembleD := by
  intro dts
  induction dts with
  | nil => intro ps bn _; simp [bgpLoop2]
  | cons nd rest ih =>
    intro ps bn hd
    obtain ⟨name, de⟩ := nd
    have hname : name ∉ rest.map Prod.fst := (List.nodup_cons.mp (by simpa using hd)).1
    have hrest : (rest.map Prod.fst).Nodup := (List.nodup_cons.mp (by simpa using hd)).2
    simp only [bgpLoop2]
    cases hl : dlookup name bn with
    | some v =>
      rw [if_pos (show (some v).isSome = true from rfl), ih ps bn hrest, List.filter_cons]
      simp [hl]
    | none =>
      rw [if_neg (by simp), ih _ _ hrest, List.filter_cons]
      rw [filter_congr_on
        (fun nd => (dlookup nd.1 (dinsert name (assemble_profile name de none) bn)).isNone)
        (fun nd => (dlookup nd.1 bn).isNone) rest
        (by
          intro a ha
          have hne : a.1 ≠ name := by
            intro hc
            exact hname (List.mem_map.mpr ⟨a, ha, hc⟩)
          show (dlookup a.1 (dinsert name (assemble_profile name de none) bn)).isNone
            = (dlookup a.1 bn).isNone
          rw [dlookup_dinsert, if_neg hne])]
      simp [hl, assembleD]

theorem build_fst (table : GuestTable) (details : Details)
    (hd : (details.map Prod.fst).Nodup) :
    (build_guest_profiles table details).1
      = table.map (assembleT details)
        ++ (details.filter (fun nd => !decide (nd.1 ∈ table.map Prod.fst))).map assembleD := by
  have h1 := bgpLoop1_eq details table [] []
  have h2 : (bgpLoop1 details table [] []).1 = table.map (assembleT details) := by
    rw [h1]; simp
  have h3 : (bgpLoop1 details table [] []).2
      = table.foldl (fun b nt => dinsert nt.1 (assembleT details nt) b) [] := by
    rw [h1]
  show (bgpLoop2 details (bgpLoop1 details table [] []).1 (bgpLoop1 details table [] []).2).1
    = _
  rw [h2, h3, bgpLoop2_eq details _ _ hd]
  rw [filter_congr_on
    (fun nd => (dlookup nd.1 (table.foldl (fun b nt => dinsert nt.1 (assembleT details nt) b) [])).isNone)
    (fun nd => !decide (nd.1 ∈ table.map Prod.fst)) details
    (by
      intro a _
      have hiff := foldl_dinsert_lookup_isSome details table [] a.1
      simp only [dlookup, Option.isSome_none, Bool.false_eq_true, or_false] at hiff
      cases hl : dlookup a.1 (table.foldl (fun b nt => dinsert nt.1 (assembleT details nt) b) []) with
      | none =>
        rw [hl] at hiff
        simp only [Option.isSome_none, Bool.false_eq_true, false_iff] at hiff
        simp [hiff, hl]
      | some v =>
        rw [hl] at hiff
        simp only [Option.isSome_some, true_iff] at hiff
        simp [hiff, hl])]

theorem map_congr_on {α β : Type} (f g : α → β) :
    ∀ (l : List α), (∀ a ∈ l, f a = g a) → l.map f = l.map g := by
  intro l
  induction l with
  | nil => intro h; rfl
  | cons a rest ih =>
    intro h
    simp only [List.map_cons]
    rw [h a (List.mem_cons_self a rest), ih (fun x hx => h x (List.mem_cons_of_mem a hx))]

theorem mem_build (table : GuestTable) (details : Details)
    (ht : (table.map Prod.fst).Nodup) (hd : (details.map Prod.fst).Nodup)
    (p : GuestProfileSpec) (hp : p ∈ (build_guest_profiles table details).1) :
    p = assemble_profile p.name ((dlookup p.name details).getD []) (dlookup p.name table) := by
  rw [build_fst table details hd] at hp
  rcases List.mem_append.mp hp with h1 | h2
  · obtain ⟨nt, hmem, heq⟩ := List.mem_map.mp h1
    obtain ⟨n, te⟩ := nt
    have hname : p.name = n := by rw [← heq]; rfl
    have hlt : dlookup n table = some te := dlookup_of_mem_nodup ht hmem
    rw [hname, hlt, ← heq]
    rfl
  · obtain ⟨nd, hmem, heq⟩ := List.mem_map.mp h2
    have hmem2 := List.mem_filter.mp hmem
    obtain ⟨n, de⟩ := nd
    have hnot : n ∉ table.map Prod.fst := by
      have h3 := hmem2.2
      simp at h3
      intro hc
      obtain ⟨⟨n2, te2⟩, hmm, heq2⟩ := List.mem_map.mp hc
      have heq3 : n2 = n := heq2
      subst heq3
      exact h3 te2 hmm
    have hname : p.name = n := by rw [← heq]; rfl
    have hld : dlookup n details = some de := dlookup_of_mem_nodup hd hmem2.1
    have hltn : dlookup n table = none := dlookup_eq_none_of_not_mem hnot
    rw [hname, hld, hltn, ← heq]
    rfl

theorem persona_parts_eq (s r : Option String) :
    ([s, r].filterMap id).filter (fun p => !p.data.isEmpty)
      = (if truthy s then [s.getD ""] else if truthy r then [r.getD ""] else [])
        ++ (if truthy s && truthy r then [r.getD ""] else []) := by
  cases s with
  | none =>
    cases r with
    | none => rfl
    | some rv =>
      simp only [truthy]
      by_cases h : rv.data.isEmpty <;>
        simp [List.filterMap_cons, List.filter, h]
  | some sv =>
    cases r with
    | none =>
      simp only [truthy]
      by_cases h : sv.data.isEmpty <;>
        simp [List.filterMap_cons, List.filter, h]
    | some rv =>
      simp only [truthy]
      by_cases h1 : sv.data.isEmpty <;> by_cases h2 : rv.data.isEmpty <;>
        simp [List.filterMap_cons, List.filter, h1, h2]

theorem assemble_persona (n : String) (info : Fields) (te : Option TableRow) :
    (assemble_profile n info te).persona_description
      = personaAmended (te.map (·.summary)) (dlookup "Rationale" info)
          (dlookup "Chemistry Tag" info) (dlookup "Potential Topic" info) := by
  simp only [assemble_profile, personaAmended]
  rw [persona_parts_eq]

/-- C1 counterexample: with table summary "X" and detail Rationale "X" for the same
guest, build_guest_profiles produces persona_description "X X" (the Rationale is
appended even though it equals the summary), while the claim's formula — which adds
Rationale only when it differs from the summary — yields "X". -/
theorem C1_counterexample :
    ((build_guest_profiles [("A", ⟨"D", "X"⟩)] [("A", [("Rationale", "X")])]).1.map
        (fun p => p.persona_description) = ["X X"])
    ∧ personaClaimC1 (some "X") (some "X") none none = "X" := by decide

/-- C1 (amended): for every profile assembled by build_guest_profiles from mappings
with duplicate-free keys, persona_description is the stripped space-join of: the
table summary (or the detail Rationale if the summary is not truthy), then the
Rationale whenever both it and the summary are truthy — even when they coincide —
then "Chemistry Tag: " plus the value when that detail field is truthy, then
"Potential Topic: " plus the value when that detail field is truthy. -/
theorem C1_persona_description_formula (table : GuestTable) (details : Details)
    (ht : (table.map Prod.fst).Nodup) (hd : (details.map Prod.fst).Nodup)
    (p : GuestProfileSpec) (hp : p ∈ (build_guest_profiles table details).1) :
    p.persona_description
      = personaAmended ((dlookup p.name table).map (·.summary))
          (dlookup "Rationale" ((dlookup p.name details).getD []))
          (dlookup "Chemistry Tag" ((dlookup p.name details).getD []))
          (dlookup "Potential Topic" ((dlookup p.name details).getD [])) := by
  conv_lhs => rw [mem_build table details ht hd p hp]
  exact assemble_persona p.name ((dlookup p.name details).getD []) (dlookup p.name table)

/-- C1 witness: the formula instantiated on a concrete table and detail mapping. -/
theorem C1_persona_description_formula_witness :
    ((build_guest_profiles [("A", ⟨"D", "X"⟩)] [("A", [("Rationale", "X")])]).1.headD
        default).persona_description
      = personaAmended (some "X") (some "X") none none :=
  C1_persona_description_formula [("A", ⟨"D", "X"⟩)] [("A", [("Rationale", "X")])]
    (by decide) (by decide)
    ((build_guest_profiles [("A", ⟨"D", "X"⟩)] [("A", [("Rationale", "X")])]).1.headD default)
    (by decide)

/-- C8: the profile list of build_guest_profiles holds, for mappings with
duplicate-free keys, one profile per table name in table order followed by one
profile per detail-only name in detail order, and no two profiles share a name. -/
theorem C8_profile_list_ordering (table : GuestTable) (details : Details)
    (ht : (table.map Prod.fst).Nodup) (hd : (details.map Prod.fst).Nodup) :
    ((build_guest_profiles table details).1.map (fun p => p.name)
      = table.map Prod.fst
        ++ (details.map Prod.fst).filter (fun n => !decide (n ∈ table.map Prod.fst)))
    ∧ ((build_guest_profiles table details).1.map (fun p => p.name)).Nodup := by
  have hmap : (build_guest_profiles table details).1.map (fun p => p.name)
      = table.map Prod.fst
        ++ (details.map Prod.fst).filter (fun n => !decide (n ∈ table.map Prod.fst)) := by
    rw [build_fst table details hd, List.map_append, List.map_map, List.map_map]
    have hleft : table.map ((fun p => p.name) ∘ assembleT details) = table.map Prod.fst :=
      map_congr_on _ _ table (fun a _ => rfl)
    have hright :
        (details.filter (fun nd => !decide (nd.1 ∈ table.map Prod.fst))).map
            ((fun p => p.name) ∘ assembleD)
          = (details.map Prod.fst).filter (fun n => !decide (n ∈ table.map Prod.fst)) := by
      rw [map_congr_on ((fun p : GuestProfileSpec => p.name) ∘ assembleD) Prod.fst _
        (fun a _ => assemble_name a.1 a.2 none)]
      exact map_fst_filter_key (fun n => !decide (n ∈ table.map Prod.fst)) details
    rw [hleft, hright]
  refine ⟨hmap, ?_⟩
  rw [hmap]
  refine List.Nodup.append ht (hd.filter _) ?_
  intro a ha1 ha2
  have h2 := (List.mem_filter.mp ha2).2
  rw [Bool.not_eq_true', decide_eq_false_iff_not] at h2
  exact h2 ha1

/-! Lemmas about the episode-section parser. -/

theorem splitOnceChar_isSome_of_mem {c : Char} :
    ∀ {l : List Char}, c ∈ l → (splitOnceChar c l).isSome = true := by
  intro l
  induction l with
  | nil => intro h; simp at h
  | cons a rest ih =>
    intro h
    show (if a == c then some ([], rest)
      else (splitOnceChar c rest).map (fun p => (a :: p.1, p.2))).isSome = true
    by_cases hac : a = c
    · simp [hac]
    · rw [if_neg (by simpa using hac)]
      have h2 : c ∈ rest := by
        rcases List.mem_cons.mp h with h1 | h2
        · exact absurd h1.symm hac
        · exact h2
      have h3 := ih h2
      cases hs : splitOnceChar c rest with
      | none => rw [hs] at h3; simp at h3
      | some v => simp

theorem arcEpisodes_length (theme concept narrative : String) (smap : Fields) :
    ∀ (gs : List (String × Option String)) (idx : Nat),
      (arcEpisodes theme concept narrative smap idx gs).length = gs.length := by
  intro gs
  induction gs with
  | nil => intro idx; rfl
  | cons g rest ih =>
    intro idx
    obtain ⟨name, descriptor⟩ := g
    show (_ :: arcEpisodes theme concept narrative smap (idx + 1) rest).length = _
    rw [List.length_cons, ih (idx + 1), List.length_cons]

theorem arcEpisodes_guest_names (theme concept narrative : String) (smap : Fields) :
    ∀ (gs : List (String × Option String)) (idx : Nat),
      (arcEpisodes theme concept narrative smap idx gs).map (fun e => e.guest_names)
        = gs.map (fun g => [g.1]) := by
  intro gs
  induction gs with
  | nil => intro idx; rfl
  | cons g rest ih =>
    intro idx
    obtain ⟨name, descriptor⟩ := g
    show [name] :: (arcEpisodes theme concept narrative smap (idx + 1) rest).map
        (fun e => e.guest_names) = _
    rw [ih (idx + 1)]
    rfl

theorem processSection_empty {s : String} (h : (pyStrip s).data.isEmpty = true) :
    processSection s = some [] := by
  unfold processSection
  rw [if_pos h]

theorem nonblankLines_ne_nil_block {s : String} {header : String} {rest : List String}
    (hl : nonblankLines (pyStrip s) = header :: rest) :
    (pyStrip s).data.isEmpty = false := by
  cases hbd : (pyStrip s).data with
  | nil =>
    rw [show pyStrip s = "" from dataEq (hbd.trans rfl)] at hl
    have h0 : nonblankLines "" = [] := rfl
    rw [h0] at hl
    exact List.noConfusion hl
  | cons c t => rfl

theorem processSection_cons {s : String} {header : String} {restLines : List String}
    (hb : (pyStrip s).data.isEmpty = false)
    (hl : nonblankLines (pyStrip s) = header :: restLines) :
    processSection s
      = (if containsSub "Thematic Pairing" header then
          (splitColonTail header).map
            (fun tail => [pairingEpisode (parse_structured_section restLines) tail])
        else if containsSub "Thematic Arc" header then
          (splitColonTail header).map
            (fun tail => arcSection tail (parse_structured_section restLines))
        else some []) := by
  unfold processSection
  rw [if_neg (by simp [hb]), hl]

theorem sectionHeaderOk_cons {s : String} {header : String} {restLines : List String}
    (hb : (pyStrip s).data.isEmpty = false)
    (hl : nonblankLines (pyStrip s) = header :: restLines) :
    sectionHeaderOk s
      = (if containsSub "Thematic Pairing" header || containsSub "Thematic Arc" header then
          header.data.contains ':' else true) := by
  unfold sectionHeaderOk
  rw [if_neg (by simp [hb]), hl]

theorem sectionEpisodeCount_cons {s : String} {header : String} {restLines : List String}
    (hb : (pyStrip s).data.isEmpty = false)
    (hl : nonblankLines (pyStrip s) = header :: restLines) :
    sectionEpisodeCount s
      = (if containsSub "Thematic Pairing" header then 1
        else if containsSub "Thematic Arc" header then
          (extract_name_descriptor_pairs
            ((dlookup "Guests" (parse_structured_section restLines)).getD "")).length
        else 0) := by
  unfold sectionEpisodeCount
  rw [if_neg (by simp [hb]), hl]

theorem processSection_skip {s : String} {header : String} {rest : List String}
    (hl : nonblankLines (pyStrip s) = header :: rest)
    (h1 : containsSub "Thematic Pairing" header = false)
    (h2 : containsSub "Thematic Arc" header = false) :
    processSection s = some [] := by
  rw [processSection_cons (nonblankLines_ne_nil_block hl) hl, if_neg (by simp [h1]),
    if_neg (by simp [h2])]

theorem colon_mem_of_contains {header : String} (h : header.data.contains ':' = true) :
    (':' : Char) ∈ header.data := by
  have h3 : header.data.elem ':' = true := h
  exact (List.elem_iff).mp h3

theorem splitColonTail_isSome_of_contains {header : String}
    (h : header.data.contains ':' = true) : (splitColonTail header).isSome = true := by
  have h4 := splitOnceChar_isSome_of_mem (colon_mem_of_contains h)
  unfold splitColonTail
  cases hs : splitOnceChar ':' header.data with
  | none => rw [hs] at h4; simp at h4
  | some v => simp

theorem processSection_isSome_of_ok {s : String} (h : sectionHeaderOk s = true) :
    (processSection s).isSome = true := by
  cases hb : (pyStrip s).data.isEmpty with
  | true => rw [processSection_empty hb]; rfl
  | false =>
    cases hl : nonblankLines (pyStrip s) with
    | nil =>
      unfold sectionHeaderOk at h
      rw [if_neg (by simp [hb]), hl] at h
      simp at h
    | cons header restLines =>
      rw [sectionHeaderOk_cons hb hl] at h
      rw [processSection_cons hb hl]
      by_cases hp : containsSub "Thematic Pairing" header = true
      · rw [if_pos hp]
        rw [if_pos (by simp [hp])] at h
        have h4 := splitColonTail_isSome_of_contains h
        cases hs : splitColonTail header with
        | none => rw [hs] at h4; simp at h4
        | some v => simp
      · rw [if_neg hp]
        by_cases ha : containsSub "Thematic Arc" header = true
        · rw [if_pos ha]
          rw [if_pos (by simp [ha])] at h
          have h4 := splitColonTail_isSome_of_contains h
          cases hs : splitColonTail header with
          | none => rw [hs] at h4; simp at h4
          | some v => simp
        · rw [if_neg ha]
          rfl

theorem processSection_length {s : String} {eps : List EpisodeSpec}
    (h : processSection s = some eps) : eps.length = sectionEpisodeCount s := by
  cases hb : (pyStrip s).data.isEmpty with
  | true =>
    rw [processSection_empty hb] at h
    cases h
    unfold sectionEpisodeCount
    rw [if_pos hb]
    rfl
  | false =>
    cases hl : nonblankLines (pyStrip s) with
    | nil =>
      unfold processSection at h
      rw [if_neg (by simp [hb]), hl] at h
      exact Option.noConfusion h
    | cons header restLines =>
      rw [processSection_cons hb hl] at h
      rw [sectionEpisodeCount_cons hb hl]
      by_cases hp : containsSub "Thematic Pairing" header = true
      · rw [if_pos hp] at h
        rw [if_pos hp]
        cases hs : splitColonTail header with
        | none => rw [hs] at h; exact Option.noConfusion h
        | some tail =>
          rw [hs] at h
          cases h
          rfl
      · rw [if_neg hp] at h
        rw [if_neg hp]
        by_cases ha : containsSub "Thematic Arc" header = true
        · rw [if_pos ha] at h
          rw [if_pos ha]
          cases hs : splitColonTail header with
          | none => rw [hs] at h; exact Option.noConfusion h
          | some tail =>
            rw [hs] at h
            cases h
            exact arcEpisodes_length _ _ _ _ _ 1
        · rw [if_neg ha] at h
          rw [if_neg ha]
          cases h
          rfl

theorem foldl_epStep_none : ∀ (secs : List String), secs.foldl epStep none = none := by
  intro secs
  induction secs with
  | nil => rfl
  | cons sec rest ih => exact ih

theorem foldl_epStep_length :
    ∀ (secs : List String) (acc0 eps : List EpisodeSpec),
      secs.foldl epStep (some acc0) = some eps →
      eps.length = acc0.length + (secs.map sectionEpisodeCount).sum := by
  intro secs
  induction secs with
  | nil =>
    intro acc0 eps h
    cases h
    simp
  | cons sec rest ih =>
    intro acc0 eps h
    rw [List.foldl_cons] at h
    cases hps : processSection sec with
    | none =>
      rw [show epStep (some acc0) sec = none from by simp [epStep, hps]] at h
      rw [foldl_epStep_none] at h
      exact Option.noConfusion h
    | some more =>
      rw [show epStep (some acc0) sec = some (acc0 ++ more) from by simp [epStep, hps]] at h
      have h2 := ih (acc0 ++ more) eps h
      rw [h2, List.length_append, processSection_length hps, List.map_cons, List.sum_cons]
      omega

theorem foldl_epStep_mem :
    ∀ (secs : List String) (acc0 eps : List EpisodeSpec),
      secs.foldl epStep (some acc0) = some eps →
      ∀ e ∈ eps, e ∈ acc0 ∨ ∃ s ∈ secs, ∃ eps2, processSection s = some eps2 ∧ e ∈ eps2 := by
  intro secs
  induction secs with
  | nil =>
    intro acc0 eps h e he
    cases h
    exact .inl he
  | cons sec rest ih =>
    intro acc0 eps h e he
    rw [List.foldl_cons] at h
    cases hps : processSection sec with
    | none =>
      rw [show epStep (some acc0) sec = none from by simp [epStep, hps]] at h
      rw [foldl_epStep_none] at h
      exact Option.noConfusion h
    | some more =>
      rw [show epStep (some acc0) sec = some (acc0 ++ more) from by simp [epStep, hps]] at h
      rcases ih (acc0 ++ more) eps h e he with h1 | ⟨s2, hs2, eps2, hps2, he2⟩
      · rcases List.mem_append.mp h1 with h3 | h4
        · exact .inl h3
        · exact .inr ⟨sec, List.mem_cons_self sec rest, more, hps, h4⟩
      · exact .inr ⟨s2, List.mem_cons_of_mem sec hs2, eps2, hps2, he2⟩

theorem foldl_epStep_isSome :
    ∀ (secs : List String) (acc0 : List EpisodeSpec),
      (∀ s ∈ secs, sectionHeaderOk s = true) →
      (secs.foldl epStep (some acc0)).isSome = true := by
  intro secs
  induction secs with
  | nil => intro acc0 _; rfl
  | cons sec rest ih =>
    intro acc0 hok
    rw [List.foldl_cons]
    have h1 := processSection_isSome_of_ok (hok sec (List.mem_cons_self sec rest))
    cases hps : processSection sec with
    | none => rw [hps] at h1; simp at h1
    | some more =>
      rw [show epStep (some acc0) sec = some (acc0 ++ more) from by simp [epStep, hps]]
      exact ih (acc0 ++ more) (fun s hs => hok s (List.mem_cons_of_mem sec hs))

theorem data_isEmpty_false {s : String} (h : s ≠ "") : s.data.isEmpty = false := by
  cases hd : s.data with
  | nil => exact absurd (dataEq (hd.trans rfl)) h
  | cons c t => rfl

theorem mem_filter_of_mem_pred {x : String} {l : List String} (hx : x ∈ l)
    (hp : x.data.isEmpty = false) : x ∈ l.filter (fun p => !p.data.isEmpty) :=
  List.mem_filter.mpr ⟨hx, by simp [hp]⟩

theorem pairingEpisode_part_none (fields : Fields) (tail : String) :
    dlookup "part" (pairingEpisode fields tail).notes = none := by
  simp only [pairingEpisode]
  simp [dlookup]

theorem pairingEpisode_concept_lookup (fields : Fields) (tail : String) :
    dlookup "concept" (pairingEpisode fields tail).notes
      = some (pyStrip ((dlookup "Concept" fields).getD "")) := by
  simp only [pairingEpisode]
  simp [dlookup]

theorem pairingEpisode_title_ne (fields : Fields) (tail : String)
    (h : (pairingEpisode fields tail).theme ≠ "") : (pairingEpisode fields tail).title ≠ "" := by
  have hth : (pairingEpisode fields tail).theme = pyStrip tail := rfl
  rw [hth] at h
  show (if !(first_sentence (pyStrip ((dlookup "Concept" fields).getD ""))).data.isEmpty then
      pyStrip tail ++ ": " ++ first_sentence (pyStrip ((dlookup "Concept" fields).getD ""))
    else pyStrip tail) ≠ ""
  by_cases hs : (first_sentence (pyStrip ((dlookup "Concept" fields).getD ""))).data.isEmpty = true
  · rw [if_neg (by simp [hs])]
    exact h
  · rw [if_pos (by simp at hs; simp [hs])]
    exact append_ne_empty_left _ _ (append_ne_empty_right _ _ (by decide))

theorem pairingEpisode_description_ne (fields : Fields) (tail : String)
    (h : pyStrip ((dlookup "Concept" fields).getD "") ≠ "") :
    (pairingEpisode fields tail).description ≠ "" := by
  obtain ⟨c, hc, hw⟩ := pyStrip_head_char h
  exact pyStrip_ne_empty_of_mem
    (mem_pyJoin (mem_filter_of_mem_pred (List.mem_cons_self _ _) (data_isEmpty_false h)) hc) hw

theorem arcEpisodes_props (theme concept narrative : String) (smap : Fields) :
    ∀ (gs : List (String × Option String)) (idx : Nat) (e : EpisodeSpec),
      e ∈ arcEpisodes theme concept narrative smap idx gs →
      (dlookup "part" e.notes).isSome = true ∧ e.title ≠ "" ∧ e.description ≠ "" := by
  intro gs
  induction gs with
  | nil => intro idx e he; simp [arcEpisodes] at he
  | cons g rest ih =>
    intro idx e he
    obtain ⟨name, descriptor⟩ := g
    rcases List.mem_cons.mp he with h1 | h2
    · subst h1
      refine ⟨by simp [dlookup], ?_, ?_⟩
      · exact append_ne_empty_left _ _ (append_ne_empty_right _ _ (by decide))
      · have hfne : ("Featuring " ++ name ++ ".") ≠ "" :=
          append_ne_empty_right _ _ (by decide)
        have hF : ('F' : Char) ∈ ("Featuring " ++ name ++ ".").data := by
          rw [data_append, data_append]
          exact List.mem_append.mpr (.inl (List.mem_append.mpr (.inl (by decide))))
        have hmem : ("Featuring " ++ name ++ ".")
            ∈ [concept]
              ++ (match dlookup name smap with
                | some s => if s.data.isEmpty then [] else [s]
                | none => [])
              ++ ["Featuring " ++ name ++ "."] :=
          List.mem_append.mpr (.inr (List.mem_cons_self _ _))
        exact pyStrip_ne_empty_of_mem
          (mem_pyJoin (mem_filter_of_mem_pred hmem (data_isEmpty_false hfne)) hF)
          (by decide)
    · exact ih (idx + 1) e h2

/-- C2 counterexample: a second block whose header contains "Thematic Arc" but no
colon makes parse_episode_specs raise (IndexError on the theme split), modelled as
a none result, refuting the claim that the parse never fails. -/
theorem C2_counterexample :
    parse_episode_specs ("1. Thematic Pairing: A" ++ "\n" ++ "2. Thematic Arc without colon")
      = none := by rfl

/-- C2 (amended): parse_episode_specs returns the empty sequence when the literal
pairing marker is absent; it returns some result on any document all of whose
blocks either are not classified as Pairing or Arc sections or carry a colon in
their header line; and a block whose header matches neither recognized kind is
silently skipped, contributing no episodes and no failure. -/
theorem C2_no_failure_policy (text : String) :
    (findSubIdx pairingMarker.data text.data = none → parse_episode_specs text = some [])
    ∧ ((∀ s ∈ episodeSections text, sectionHeaderOk s = true) →
        (parse_episode_specs text).isSome = true)
    ∧ (∀ (s header : String) (rest : List String),
        nonblankLines (pyStrip s) = header :: rest →
        containsSub "Thematic Pairing" header = false →
        containsSub "Thematic Arc" header = false →
        processSection s = some []) := by
  refine ⟨?_, ?_, ?_⟩
  · intro h
    unfold parse_episode_specs
    rw [h]
  · intro hok
    unfold parse_episode_specs
    cases hf : findSubIdx pairingMarker.data text.data with
    | none => rfl
    | some i => exact foldl_epStep_isSome _ [] hok
  · intro s header rest hl h1 h2
    exact processSection_skip hl h1 h2

/-- C2 witness: a document with one Pairing and one Arc block, all headers carrying
colons, parses without failure. -/
theorem C2_no_failure_policy_witness :
    (parse_episode_specs
      ("1. Thematic Pairing: T" ++ "\n" ++ "* Concept: C." ++ "\n"
        ++ "2. Thematic Arc: U" ++ "\n" ++ "* Guests: Ann Lee (x)")).isSome = true :=
  (C2_no_failure_policy
    ("1. Thematic Pairing: T" ++ "\n" ++ "* Concept: C." ++ "\n"
      ++ "2. Thematic Arc: U" ++ "\n" ++ "* Guests: Ann Lee (x)")).2.1 (by decide)

/-- C3 counterexample: the single-line document "1. Thematic Pairing:" produces one
EpisodeSpec whose title and description are both the empty string. -/
theorem C3_counterexample :
    (parse_episode_specs "1. Thematic Pairing:").map
        (fun eps => eps.map (fun e => (e.title, e.description)))
      = some [("", "")] := by rfl

/-- C3 (amended): every EpisodeSpec produced by parse_episode_specs from an Arc
section (recognizable by the "part" note) has a non-empty title and description;
one produced from a Pairing section has a non-empty title whenever its theme is
non-empty and a non-empty description whenever its concept note is non-empty. -/
theorem C3_nonempty_title_description (text : String) (eps : List EpisodeSpec)
    (h : parse_episode_specs text = some eps) :
    ∀ e ∈ eps,
      ((dlookup "part" e.notes).isSome = true → e.title ≠ "" ∧ e.description ≠ "")
      ∧ ((dlookup "part" e.notes).isSome = false →
          (e.theme ≠ "" → e.title ≠ "")
          ∧ (∀ c, dlookup "concept" e.notes = some c → c ≠ "" → e.description ≠ "")) := by
  intro e he
  have hsec : ∃ s ∈ episodeSections text, ∃ eps2, processSection s = some eps2 ∧ e ∈ eps2 := by
    unfold parse_episode_specs at h
    cases hf : findSubIdx pairingMarker.data text.data with
    | none =>
      rw [hf] at h
      have h2 : some ([] : List EpisodeSpec) = some eps := h
      cases h2
      simp at he
    | some i =>
      rw [hf] at h
      rcases foldl_epStep_mem (episodeSections text) [] eps h e he with h1 | h2
      · simp at h1
      · exact h2
  obtain ⟨s, hs, eps2, hps, he2⟩ := hsec
  cases hb : (pyStrip s).data.isEmpty with
  | true =>
    rw [processSection_empty hb] at hps
    cases hps
    simp at he2
  | false =>
    cases hl : nonblankLines (pyStrip s) with
    | nil =>
      unfold processSection at hps
      rw [if_neg (by simp [hb]), hl] at hps
      exact Option.noConfusion hps
    | cons header restLines =>
      rw [processSection_cons hb hl] at hps
      by_cases hp : containsSub "Thematic Pairing" header = true
      · rw [if_pos hp] at hps
        cases hsc : splitColonTail header with
        | none => rw [hsc] at hps; exact Option.noConfusion hps
        | some tail =>
          rw [hsc] at hps
          have h3 : some [pairingEpisode (parse_structured_section restLines) tail]
              = some eps2 := hps
          cases h3
          have he3 : e = pairingEpisode (parse_structured_section restLines) tail := by
            simpa using he2
          subst he3
          constructor
          · intro hcontra
            rw [pairingEpisode_part_none] at hcontra
            simp at hcontra
          · intro _
            refine ⟨pairingEpisode_title_ne _ _, ?_⟩
            intro c hcl hcne
            rw [pairingEpisode_concept_lookup] at hcl
            have hcc : pyStrip ((dlookup "Concept" (parse_structured_section restLines)).getD "")
                = c := by
              cases hcl
              rfl
            exact pairingEpisode_description_ne _ _ (by rw [hcc]; exact hcne)
      · rw [if_neg hp] at hps
        by_cases ha : containsSub "Thematic Arc" header = true
        · rw [if_pos ha] at hps
          cases hsc : splitColonTail header with
          | none => rw [hsc] at hps; exact Option.noConfusion hps
          | some tail =>
            rw [hsc] at hps
            have h3 : some (arcSection tail (parse_structured_section restLines))
                = some eps2 := hps
            cases h3
            have hprops := arcEpisodes_props _ _ _ _ _ 1 e he2
            constructor
            · intro _
              exact hprops.2
            · intro hcontra
              rw [hprops.1] at hcontra
              exact Bool.noConfusion hcontra
        · rw [if_neg ha] at hps
          have h3 : some ([] : List EpisodeSpec) = some eps2 := hps
          cases h3
          simp at he2

/-- C3 witness: on a concrete Arc document, the produced episode has the "part"
note and hence a non-empty title and description. -/
theorem C3_nonempty_title_description_witness :
    (((parse_episode_specs
        ("1. Thematic Pairing: T" ++ "\n" ++ "2. Thematic Arc: U" ++ "\n"
          ++ "* Guests: Ann Lee (x)")).getD []).getLastD default).title ≠ "" := by
  have h := C3_nonempty_title_description
    ("1. Thematic Pairing: T" ++ "\n" ++ "2. Thematic Arc: U" ++ "\n" ++ "* Guests: Ann Lee (x)")
    ((parse_episode_specs
      ("1. Thematic Pairing: T" ++ "\n" ++ "2. Thematic Arc: U" ++ "\n"
        ++ "* Guests: Ann Lee (x)")).getD [])
    (by rfl)
    (((parse_episode_specs
      ("1. Thematic Pairing: T" ++ "\n" ++ "2. Thematic Arc: U" ++ "\n"
        ++ "* Guests: Ann Lee (x)")).getD []).getLastD default)
    (by decide)
  exact (h.1 (by decide)).1

/-- C6: when parse_episode_specs succeeds, the number of episodes equals the sum,
over the episode blocks, of the per-block count (one per Pairing block, the number
of guests extracted from the Guests field per Arc block, zero otherwise); in
particular a block whose header is classified as a Thematic Pairing always counts
exactly one episode regardless of its guest count. -/
theorem C6_episode_count (text : String) (eps : List EpisodeSpec)
    (h : parse_episode_specs text = some eps) :
    (eps.length = ((episodeSections text).map sectionEpisodeCount).sum)
    ∧ (∀ s ∈ episodeSections text,
        containsSub "Thematic Pairing" ((nonblankLines (pyStrip s)).headD "") = true →
        sectionEpisodeCount s = 1) := by
  constructor
  · unfold parse_episode_specs at h
    cases hf : findSubIdx pairingMarker.data text.data with
    | none =>
      rw [hf] at h
      have h2 : some ([] : List EpisodeSpec) = some eps := h
      cases h2
      unfold episodeSections
      rw [hf]
      rfl
    | some i =>
      rw [hf] at h
      have h2 := foldl_epStep_length (episodeSections text) [] eps h
      simpa using h2
  · intro s _ hhead
    cases hl : nonblankLines (pyStrip s) with
    | nil =>
      rw [hl] at hhead
      exact absurd hhead (by decide)
    | cons header rest =>
      rw [hl] at hhead
      have hb := nonblankLines_ne_nil_block hl
      rw [sectionEpisodeCount_cons hb hl, if_pos (by simpa using hhead)]

/-- C6 witness: on a document with one Pairing block (two proposed guests) and one
two-guest Arc block, three episodes are produced, matching the per-block sum. -/
theorem C6_episode_count_witness :
    ((parse_episode_specs
        ("1. Thematic Pairing: T" ++ "\n" ++ "* Proposed Pairing: Ann Lee (x) + Bo Ray (y)"
          ++ "\n" ++ "2. Thematic Arc: U" ++ "\n" ++ "* Guests: Cy Day (z) + Di Fox (w)")).getD
      []).length
      = ((episodeSections
          ("1. Thematic Pairing: T" ++ "\n" ++ "* Proposed Pairing: Ann Lee (x) + Bo Ray (y)"
            ++ "\n" ++ "2. Thematic Arc: U" ++ "\n" ++ "* Guests: Cy Day (z) + Di Fox (w)")).map
        sectionEpisodeCount).sum :=
  (C6_episode_count
    ("1. Thematic Pairing: T" ++ "\n" ++ "* Proposed Pairing: Ann Lee (x) + Bo Ray (y)"
      ++ "\n" ++ "2. Thematic Arc: U" ++ "\n" ++ "* Guests: Cy Day (z) + Di Fox (w)")
    ((parse_episode_specs
      ("1. Thematic Pairing: T" ++ "\n" ++ "* Proposed Pairing: Ann Lee (x) + Bo Ray (y)"
        ++ "\n" ++ "2. Thematic Arc: U" ++ "\n" ++ "* Guests: Cy Day (z) + Di Fox (w)")).getD [])
    (by rfl)).1

/-- C10: a block classified as a Thematic Arc produces episodes whose guest_names
are the one-element lists of the guest each part is about, in extraction order,
while a block classified as a Thematic Pairing produces a single episode carrying
all extracted guest names in extraction order. -/
theorem C10_guest_name_attachment (s : String) (eps : List EpisodeSpec)
    (h : processSection s = some eps) (header : String) (restLines : List String)
    (hl : nonblankLines (pyStrip s) = header :: restLines) :
    (containsSub "Thematic Pairing" header = false →
      containsSub "Thematic Arc" header = true →
      eps.map (fun e => e.guest_names)
        = (extract_name_descriptor_pairs
            ((dlookup "Guests" (parse_structured_section restLines)).getD "")).map
          (fun g => [g.1]))
    ∧ (containsSub "Thematic Pairing" header = true →
        ∃ e, eps = [e]
          ∧ e.guest_names
              = (extract_name_descriptor_pairs
                  ((dlookup "Proposed Pairing" (parse_structured_section restLines)).getD "")).map
                Prod.fst) := by
  have hb := nonblankLines_ne_nil_block hl
  rw [processSection_cons hb hl] at h
  constructor
  · intro h1 h2
    rw [if_neg (by simp [h1]), if_pos (by simp [h2])] at h
    cases hsc : splitColonTail header with
    | none => rw [hsc] at h; exact Option.noConfusion h
    | some tail =>
      rw [hsc] at h
      have h3 : some (arcSection tail (parse_structured_section restLines)) = some eps := h
      cases h3
      exact arcEpisodes_guest_names _ _ _ _ _ 1
  · intro h1
    rw [if_pos (by simp [h1])] at h
    cases hsc : splitColonTail header with
    | none => rw [hsc] at h; exact Option.noConfusion h
    | some tail =>
      rw [hsc] at h
      have h3 : some [pairingEpisode (parse_structured_section restLines) tail] = some eps := h
      cases h3
      exact ⟨pairingEpisode (parse_structured_section restLines) tail, rfl, rfl⟩

/-- C10 witness: a concrete two-guest Arc block yields singleton guest lists. -/
theorem C10_guest_name_attachment_witness :
    ((processSection
        ("2. Thematic Arc: U" ++ "\n" ++ "* Guests: Ann Lee (x) + Bo Ray (y)")).getD []).map
      (fun e => e.guest_names) = [["Ann Lee"], ["Bo Ray"]] := by
  have h := (C10_guest_name_attachment
    ("2. Thematic Arc: U" ++ "\n" ++ "* Guests: Ann Lee (x) + Bo Ray (y)")
    ((processSection
      ("2. Thematic Arc: U" ++ "\n" ++ "* Guests: Ann Lee (x) + Bo Ray (y)")).getD [])
    (by rfl) "2. Thematic Arc: U" ["* Guests: Ann Lee (x) + Bo Ray (y)"]
    (by rfl)).1 (by rfl) (by rfl)
  rw [h]
  rfl

/-! Lemmas about the guest-table parser. -/

theorem goSplitChar_not_mem {c : Char} :
    ∀ (l acc : List Char), c ∉ l → goSplitChar c acc l = [acc.reverse ++ l] := by
  intro l
  induction l with
  | nil => intro acc _; simp [goSplitChar]
  | cons x rest ih =>
    intro acc h
    have hcx : c ≠ x := fun hc => h (by rw [hc]; exact List.mem_cons_self x rest)
    have hx : (x == c) = false := by
      cases hxc : x == c
      · rfl
      · exact absurd (by simpa using hxc : x = c).symm hcx
    show (if x == c then acc.reverse :: goSplitChar c [] rest
      else goSplitChar c (x :: acc) rest) = _
    rw [if_neg (by simp [hx]), ih (x :: acc) (fun hm => h (List.mem_cons_of_mem x hm))]
    simp

theorem contains_false_not_mem {c : Char} {l : List Char} (h : l.contains c = false) :
    c ∉ l := by
  intro hm
  have h2 : l.elem c = true := (List.elem_iff).mpr hm
  have h3 : l.contains c = true := h2
  rw [h3] at h
  exact Bool.noConfusion h

theorem processTableLine_policy (m : GuestTable) (line : List Char) :
    processTableLine m line
      = (match tableRowPolicy line with
        | some nr => dinsert nr.1 nr.2 m
        | none => m) := by
  by_cases h2 : (stripLR line).contains '|' = true
  · simp only [processTableLine, tableRowPolicy]
    split_ifs <;> simp_all
    omega
  · have hsp : splitOnChar '|' (stripLR line) = [stripLR line] :=
      goSplitChar_not_mem (stripLR line) [] (contains_false_not_mem (by simpa using h2))
    simp only [processTableLine, tableRowPolicy, hsp]
    have hcols : (([stripLR line].drop 1).dropLast).map
        (fun c => (⟨stripLR c⟩ : String)) = ([] : List String) := rfl
    split_ifs <;> simp_all

/-- C4 counterexample: the all-dash row "| --- | --- | --- |" (every cell consists
only of dashes, yet the line does not start with the literal "|---") is ingested
as a guest named "---", refuting the claim that no separator line contributes an
entry. -/
theorem C4_counterexample :
    parse_guest_table
      ("| Guest Name | Domain | Relevance Summary |" ++ "\n" ++ "| --- | --- | --- |"
        ++ "\n" ++ "Detailed Guest Profiles")
      = .ok [("---", ⟨"---", "---"⟩)] := by rfl

/-- C4 (amended): each line of the table body is processed by a per-line policy:
blank lines, lines starting with the literal "|---" (rather than lines with
all-dash cells), duplicate header rows (first cell empty or case-insensitively
"guest name" or "name"), and rows with fewer than two usable columns — after
splitting on the pipes, dropping the outer fields and trimming — contribute
nothing, and every other line contributes its parsed entry. -/
theorem C4_table_row_policy (lines : List (List Char)) (init : GuestTable) :
    lines.foldl processTableLine init
      = lines.foldl (fun m l =>
          match tableRowPolicy l with
          | some nr => dinsert nr.1 nr.2 m
          | none => m) init := by
  induction lines generalizing init with
  | nil => rfl
  | cons l rest ih =>
    rw [List.foldl_cons, List.foldl_cons, processTableLine_policy, ih]

theorem parse_guest_table_no_header (text : String)
    (h : findSubIdx guestTableHeader.data text.data = none) :
    parse_guest_table text = .error (.missingMarker guestTableHeader) := by
  unfold parse_guest_table
  rw [h]

theorem parse_guest_table_some_header (text : String) (i : Nat)
    (h1 : findSubIdx guestTableHeader.data text.data = some i) :
    parse_guest_table text
      = (match findSubIdx detailedMarker.data
            (text.data.drop (i + guestTableHeader.data.length)) with
        | none => .error (.missingMarker detailedMarker)
        | some j =>
          if ((splitlinesD ((text.data.drop (i + guestTableHeader.data.length)).take j)).foldl
              processTableLine []).isEmpty
          then .error .emptyResult
          else .ok ((splitlinesD
            ((text.data.drop (i + guestTableHeader.data.length)).take j)).foldl
              processTableLine [])) := by
  unfold parse_guest_table
  rw [h1]

theorem parse_guest_table_no_marker (text : String) (i : Nat)
    (h1 : findSubIdx guestTableHeader.data text.data = some i)
    (h2 : findSubIdx detailedMarker.data
      (text.data.drop (i + guestTableHeader.data.length)) = none) :
    parse_guest_table text = .error (.missingMarker detailedMarker) := by
  rw [parse_guest_table_some_header text i h1, h2]

theorem parse_guest_table_some_both (text : String) (i j : Nat)
    (h1 : findSubIdx guestTableHeader.data text.data = some i)
    (h2 : findSubIdx detailedMarker.data
      (text.data.drop (i + guestTableHeader.data.length)) = some j) :
    parse_guest_table text
      = (if ((splitlinesD ((text.data.drop (i + guestTableHeader.data.length)).take j)).foldl
            processTableLine []).isEmpty
        then .error .emptyResult
        else .ok ((splitlinesD
          ((text.data.drop (i + guestTableHeader.data.length)).take j)).foldl
            processTableLine [])) := by
  rw [parse_guest_table_some_header text i h1, h2]

/-- C5: parse_guest_table fails with a missing-marker error exactly when the literal
header row is absent or the literal "Detailed Guest Profiles" marker does not occur
after the header; and when both markers are present but zero rows parse between
them, it fails with the empty-result error rather than returning an empty mapping. -/
theorem C5_marker_and_empty_errors (text : String) :
    ((∃ w, parse_guest_table text = .error (.missingMarker w)) ↔
      (findSubIdx guestTableHeader.data text.data = none ∨
        ∃ i, findSubIdx guestTableHeader.data text.data = some i ∧
          findSubIdx detailedMarker.data
            (text.data.drop (i + guestTableHeader.data.length)) = none))
    ∧ (∀ i j,
        findSubIdx guestTableHeader.data text.data = some i →
        findSubIdx detailedMarker.data (text.data.drop (i + guestTableHeader.data.length))
          = some j →
        (splitlinesD ((text.data.drop (i + guestTableHeader.data.length)).take j)).foldl
          processTableLine [] = [] →
        parse_guest_table text = .error .emptyResult) := by
  constructor
  · cases h1 : findSubIdx guestTableHeader.data text.data with
    | none =>
      exact iff_of_true ⟨guestTableHeader, parse_guest_table_no_header text h1⟩ (.inl rfl)
    | some i =>
      cases h2 : findSubIdx detailedMarker.data
          (text.data.drop (i + guestTableHeader.data.length)) with
      | none =>
        exact iff_of_true ⟨detailedMarker, parse_guest_table_no_marker text i h1 h2⟩
          (.inr ⟨i, rfl, h2⟩)
      | some j =>
        apply iff_of_false
        · rintro ⟨w, hw⟩
          rw [parse_guest_table_some_both text i j h1 h2] at hw
          split at hw
          · exact ParseErr.noConfusion (Except.error.inj hw)
          · exact Except.noConfusion hw
        · rintro (hn | ⟨i2, hi2, hm2⟩)
          · exact Option.noConfusion hn
          · have hii : i2 = i := (Option.some.inj hi2).symm
            subst hii
            rw [h2] at hm2
            exact Option.noConfusion hm2
  · intro i j h1 h2 hrows
    rw [parse_guest_table_some_both text i j h1 h2, if_pos (by rw [hrows]; rfl)]

/-- C5 witness: a document with both markers and no rows between them fails with
the empty-result error. -/
theorem C5_marker_and_empty_errors_witness :
    parse_guest_table ("| Guest Name | Domain | Relevance Summary |" ++ "\n"
        ++ "Detailed Guest Profiles")
      = .error .emptyResult :=
  (C5_marker_and_empty_errors
    ("| Guest Name | Domain | Relevance Summary |" ++ "\n" ++ "Detailed Guest Profiles")).2
    0 1 (by rfl) (by rfl) (by rfl)

/-- C7: the name-descriptor extractor returns the two parenthesized pairs on the
paired example, and falls back to token splitting with absent descriptors on the
parenthesis-free example. -/
theorem C7_extractor_examples :
    extract_name_descriptor_pairs "Jane Doe (macro strategist) + John Roe (VC)"
      = [("Jane Doe", some "macro strategist"), ("John Roe", some "VC")]
    ∧ extract_name_descriptor_pairs "Jane Doe and John Roe"
      = [("Jane Doe", none), ("John Roe", none)] := by decide

/-- C9: the extraction engine is deterministic — the pure pipeline (guest table,
details, profile assembly, episode parsing, as sequenced by load_research) yields
equal results on equal document texts. -/
theorem C9_determinism (t1 t2 : String) (h : t1 = t2) :
    load_research t1 = load_research t2 := by rw [h]

/-- C9 witness: determinism instantiated on a concrete document text. -/
theorem C9_determinism_witness :
    load_research ("| Guest Name | Domain | Relevance Summary |" ++ "\n"
        ++ "| Jane Doe | Macro | Sharp macro takes |" ++ "\n" ++ "Detailed Guest Profiles")
      = load_research ("| Guest Name | Domain | Relevance Summary |" ++ "\n"
        ++ "| Jane Doe | Macro | Sharp macro takes |" ++ "\n" ++ "Detailed Guest Profiles") :=
  C9_determinism _ _ rfl

/-- C8 witness: the ordering property instantiated on concrete mappings with one
shared name and one detail-only name. -/
theorem C8_profile_list_ordering_witness :
    ((build_guest_profiles [("A", ⟨"D", "S"⟩)] [("B", [("Rationale", "R")]), ("A", [])]).1.map
        (fun p => p.name)
      = [("A", (⟨"D", "S"⟩ : TableRow))].map Prod.fst
        ++ ([("B", [("Rationale", "R")]), ("A", ([] : Fields))].map Prod.fst).filter
          (fun n => !decide (n ∈ [("A", (⟨"D", "S"⟩ : TableRow))].map Prod.fst)))
    ∧ (((build_guest_profiles [("A", ⟨"D", "S"⟩)]
        [("B", [("Rationale", "R")]), ("A", [])]).1.map (fun p => p.name)).Nodup) :=
  C8_profile_list_ordering [("A", ⟨"D", "S"⟩)] [("B", [("Rationale", "R")]), ("A", [])]
    (by decide) (by decide)

end GeminiImport
